import Mathlib

/-!
Verification of the `Layout` coordinator of KDDockWidgets (src/src/core/Layout.cpp).

The layout engine manages a tree of items (leaves hosting a dock-widget group, or
split containers holding ordered children).  `Layout.cpp` is the only core file of
the repository that is available; the collaborating classes (`Item`/`ItemContainer`
from the multisplitter, `Group`, `LayoutSaver` records, the host `View`) are only
declared or wrapped elsewhere, so their behaviour is modelled from the
specification (each such definition carries a `Modelled from the spec:` note).
Functions of `Layout.cpp` itself are translated statement by statement.

Conventions of the embedding:
  - `QSize` is a pair of mathematical integers (Qt's `QSize` holds C++ `int`s;
    no overflow is relevant to the properties below).
  - pointers that may be null become `Option`.
  - the host view is represented by the `viewSize` field of `Layout`;
    `view()->resize(...)` is recorded as an explicit `Effect` so that theorems
    can speak about which side effects a call produces.
  - the process-wide `LayoutSaver::restoreInProgress()` flag is passed to each
    operation as an explicit `restoring : Bool` argument.
  - Qt string identifiers (view/group ids, dock-widget names) become `Nat`.
-/

namespace KDDW

/-- Qt size: a width/height pair of machine ints, embedded as `Int`.
`expandedTo` is Qt's componentwise maximum, used by `Layout::setLayoutMinimumSize`
and `Layout::deserialize`. -/
structure QSize where
  width : Int
  height : Int
deriving DecidableEq

/-- Componentwise maximum, mirroring `QSize::expandedTo`. -/
def QSize.expandedTo (a b : QSize) : QSize :=
  ⟨max a.width b.width, max a.height b.height⟩

/-- Modelled from the spec: `Core::Group` (not under src/), a tab collection of
dock widgets bound to one item.  Dock widgets are referenced by their `Nat` id;
`currentTabIndex` is the active tab; `vetoesClose` models how the group's view
reacts to a `CloseEvent` delivered by `Platform::sendEvent` (the spec: "any
group may veto (mark event not-accepted)"). -/
structure Group where
  id : Nat
  dockWidgets : List Nat
  currentTabIndex : Int
  visible : Bool
  vetoesClose : Bool
deriving DecidableEq

/-- Modelled from the spec: `Group::dockWidgetCount()`. -/
def Group.dockWidgetCount (g : Group) : Nat :=
  g.dockWidgets.length

/-- Modelled from the spec: `Group::addTab(dw)` appends the dock widget as the
last tab; on a previously empty group the new tab becomes the active one. -/
def Group.addTab (g : Group) (dw : Nat) : Group :=
  { g with
    dockWidgets := g.dockWidgets ++ [dw]
    currentTabIndex := if g.dockWidgets.isEmpty then 0 else g.currentTabIndex }

/-- Modelled from the spec: `Group::insertWidget(dw, index)` inserts the dock
widget at the given tab position (callers only pass indices within the current
count; a negative index is clamped to the front). -/
def Group.insertWidget (g : Group) (dw : Nat) (index : Int) : Group :=
  { g with dockWidgets := g.dockWidgets.insertIdx index.toNat dw }

/-- Modelled from the spec: `Group::setVisible`. -/
def Group.setVisible (g : Group) (b : Bool) : Group :=
  { g with visible := b }

/-- Modelled from the spec: an `Item` of the multisplitter tree (not under
src/).  A leaf either hosts the view of one `Group` (its guest) or is a
placeholder (no guest, geometry retained); a container holds the ordered
children of a horizontal or vertical split. -/
inductive Item where
  | leaf (group : Option Group) (minSz : QSize) (sz : QSize)
  | container (horizontal : Bool) (sz : QSize) (children : List Item)

mutual

/-- Decidable equality on items. -/
def Item.decEq : (a b : Item) → Decidable (a = b)
  | .leaf g1 m1 s1, .leaf g2 m2 s2 =>
      if h1 : g1 = g2 then
        if h2 : m1 = m2 then
          if h3 : s1 = s2 then isTrue (by rw [h1, h2, h3])
          else isFalse (by intro he; cases he; exact h3 rfl)
        else isFalse (by intro he; cases he; exact h2 rfl)
      else isFalse (by intro he; cases he; exact h1 rfl)
  | .leaf _ _ _, .container _ _ _ => isFalse (by intro he; cases he)
  | .container _ _ _, .leaf _ _ _ => isFalse (by intro he; cases he)
  | .container h1 s1 c1, .container h2 s2 c2 =>
      if hh : h1 = h2 then
        if hs : s1 = s2 then
          match Item.decEqList c1 c2 with
          | isTrue hc => isTrue (by rw [hh, hs, hc])
          | isFalse hc => isFalse (by intro he; cases he; exact hc rfl)
        else isFalse (by intro he; cases he; exact hs rfl)
      else isFalse (by intro he; cases he; exact hh rfl)

/-- Decidable equality on child lists. -/
def Item.decEqList : (a b : List Item) → Decidable (a = b)
  | [], [] => isTrue rfl
  | [], _ :: _ => isFalse (by intro he; cases he)
  | _ :: _, [] => isFalse (by intro he; cases he)
  | a :: as, b :: bs =>
      match Item.decEq a b, Item.decEqList as bs with
      | isTrue h1, isTrue h2 => isTrue (by rw [h1, h2])
      | isFalse h1, _ => isFalse (by intro he; cases he; exact h1 rfl)
      | _, isFalse h2 => isFalse (by intro he; cases he; exact h2 rfl)

end

instance : DecidableEq Item := Item.decEq

/-- Modelled from the spec: `Item::isContainer()`. -/
def Item.isContainer : Item → Bool
  | .container _ _ _ => true
  | .leaf _ _ _ => false

/-- Modelled from the spec: `Item::isPlaceholder()` — a leaf with no guest. -/
def Item.isPlaceholder : Item → Bool
  | .leaf none _ _ => true
  | _ => false

/-- Modelled from the spec: `Item::restore(guestView)` gives a placeholder leaf
its guest back (here: the group hosted by that view), ending placeholder state. -/
def Item.restore (it : Item) (g : Group) : Item :=
  match it with
  | .leaf _ m s => .leaf (some g) m s
  | c => c

/-- Modelled from the spec: `Item::asGroupController()` — the group whose view
is the item's guest, when there is one. -/
def Item.asGroupController : Item → Option Group
  | .leaf (some g) _ _ => some g
  | _ => none

/-- Replaces the group hosted by a leaf (used to write back the mutations that
`Layout::restorePlaceholder` performs on the group object in place). -/
def Item.setGroup : Item → Group → Item
  | .leaf _ m s, g => .leaf (some g) m s
  | it, _ => it

/-- Geometry size of an item (root item size = the layout's size). -/
def Item.size : Item → QSize
  | .leaf _ _ s => s
  | .container _ s _ => s

/-- Modelled from the spec: `Item::setMinSize`.  Upstream asserts the receiver
is not a container; on a container the model leaves the item unchanged. -/
def Item.setMinSize : Item → QSize → Item
  | .leaf g _ s, m => .leaf g m s
  | it, _ => it

mutual

/-- Modelled from the spec: `ItemContainer::setSize_recursive` — top-down
recursive size assignment.  The root receives the requested size; how the span
is distributed among children is not fixed by the spec, so the model hands each
child an equal share of the split axis (the claims below depend only on the
root size and on the parts of the tree the distribution does not touch). -/
def Item.setSize_recursive : Item → QSize → Item
  | .leaf g m _, s => .leaf g m s
  | .container h _ children, s =>
      Item.container h s
        (Item.setSizeList children
          (if h then ⟨s.width / (children.length : Int), s.height⟩
           else ⟨s.width, s.height / (children.length : Int)⟩))

/-- Recursive size assignment over a child list. -/
def Item.setSizeList : List Item → QSize → List Item
  | [], _ => []
  | c :: cs, s => c.setSize_recursive s :: Item.setSizeList cs s

end

mutual

/-- Modelled from the spec: `Item::minSize` / min-size aggregation of a
container — along the split axis the children's minima add up, across it the
largest child minimum wins. -/
def Item.minSize : Item → QSize
  | .leaf _ m _ => m
  | .container h _ children => Item.minSizeList h children

/-- Min-size aggregation over the ordered children of a split. -/
def Item.minSizeList : Bool → List Item → QSize
  | _, [] => ⟨0, 0⟩
  | h, c :: cs =>
      if h then ⟨c.minSize.width + (Item.minSizeList h cs).width,
                 max c.minSize.height (Item.minSizeList h cs).height⟩
      else ⟨max c.minSize.width (Item.minSizeList h cs).width,
            c.minSize.height + (Item.minSizeList h cs).height⟩

end

mutual

/-- Modelled from the spec: `ItemContainer::items_recursive` — recursive
enumeration of the leaf items of the tree, in document order. -/
def Item.items_recursive : Item → List Item
  | .leaf g m s => [.leaf g m s]
  | .container _ _ children => Item.itemsList children

/-- Recursive leaf enumeration over a child list. -/
def Item.itemsList : List Item → List Item
  | [] => []
  | c :: cs => c.items_recursive ++ Item.itemsList cs

end

/-- Groups referenced by the leaves of a subtree, in enumeration order (this is
the body of `Layout::groups()`: `items_recursive` filtered through
`asGroupController`). -/
def Item.groups_recursive (it : Item) : List Group :=
  it.items_recursive.filterMap Item.asGroupController

/-- Side effects a layout operation performs on the outside world:
`viewResize s` records `view()->resize(s)`, `warning` records the `qWarning`
diagnostic emitted by `Layout::removeItem` on a null item. -/
inductive Effect where
  | viewResize (s : QSize)
  | warning
deriving DecidableEq

/-- The `Layout` controller state: the owned root item tree (`m_rootItem`), the
current size of the bound host view, and the re-entrancy guard
`m_inResizeEvent`.  The process-wide `LayoutSaver::restoreInProgress()` flag is
passed to the operations as an explicit `restoring` argument. -/
structure Layout where
  rootItem : Item
  viewSize : QSize
  inResizeEvent : Bool
deriving DecidableEq

/-- Source `Layout::layoutSize()`: the size of the root item. -/
def Layout.layoutSize (l : Layout) : QSize :=
  l.rootItem.size

/-- Source `Layout::layoutMinimumSize()`: the root item's minimum size. -/
def Layout.layoutMinimumSize (l : Layout) : QSize :=
  l.rootItem.minSize

/-- Source `Layout::groups()`: all leaf items' groups in enumeration order. -/
def Layout.groups (l : Layout) : List Group :=
  l.rootItem.groups_recursive

/-- Source `Layout::setLayoutSize(size)`: if the size differs from the current
layout size, resize the tree recursively, then resize the host view unless
inside a resize event or a restore is in progress. -/
def Layout.setLayoutSize (restoring : Bool) (l : Layout) (size : QSize) :
    Layout × List Effect :=
  if size ≠ l.layoutSize then
    let l1 : Layout := { l with rootItem := l.rootItem.setSize_recursive size }
    if !l.inResizeEvent && !restoring then
      ({ l1 with viewSize := size }, [Effect.viewResize size])
    else
      (l1, [])
  else
    (l, [])

/-- Source `Layout::onResize(newSize)`: sets the `m_inResizeEvent` guard for the
duration of the body (`QScopedValueRollback`), calls `setLayoutSize` unless a
restore is in progress, and returns `false` so the host toolkit's default
resize handling still runs. -/
def Layout.onResize (restoring : Bool) (l : Layout) (newSize : QSize) :
    Layout × List Effect × Bool :=
  let l1 : Layout := { l with inResizeEvent := true }
  let r := if !restoring then Layout.setLayoutSize restoring l1 newSize else (l1, [])
  ({ r.1 with inResizeEvent := l.inResizeEvent }, (r.2, false))

/-- Source `Layout::setLayoutMinimumSize(sz)`: if `sz` differs from the root
item's minimum size, first grow the layout to the current minimum
(`layoutSize().expandedTo(m_rootItem->minSize())`), then store the new minimum
on the root item. -/
def Layout.setLayoutMinimumSize (restoring : Bool) (l : Layout) (sz : QSize) :
    Layout × List Effect :=
  if sz ≠ l.rootItem.minSize then
    let r := Layout.setLayoutSize restoring l (l.layoutSize.expandedTo l.rootItem.minSize)
    ({ r.1 with rootItem := r.1.rootItem.setMinSize sz }, r.2)
  else
    (l, [])

/-- Source `Layout::updateSizeConstraints()`: recomputes the minimum size from
the tree and pushes it to `setLayoutMinimumSize` (the `qCDebug` log line is not
modelled). -/
def Layout.updateSizeConstraints (restoring : Bool) (l : Layout) :
    Layout × List Effect :=
  Layout.setLayoutMinimumSize restoring l l.rootItem.minSize

mutual

/-- Modelled from the spec: `ItemContainer::removeItem(item)` — the parent
container of the addressed item erases it from its ordered child list.  Items
are addressed by their path of child indices from the root; an empty or invalid
path leaves the tree unchanged. -/
def Item.removeItemAt : Item → List Nat → Item
  | it, [] => it
  | .container h s ch, [i] => .container h s (ch.eraseIdx i)
  | .container h s ch, i :: p => .container h s (Item.removeChildAt ch i p)
  | it, _ => it

/-- Descends to the addressed child while removing an item. -/
def Item.removeChildAt : List Item → Nat → List Nat → List Item
  | [], _, _ => []
  | c :: cs, 0, p => c.removeItemAt p :: cs
  | c :: cs, i + 1, p => c :: Item.removeChildAt cs i p

end

/-- Source `Layout::removeItem(item)`: a null item pointer (modelled as `none`)
emits a `qWarning` diagnostic and returns; otherwise removal is delegated to
the item's parent container (`item->parentContainer()->removeItem(item)`, the
item being identified by its path from the root). -/
def Layout.removeItem (l : Layout) (item : Option (List Nat)) :
    Layout × List Effect :=
  match item with
  | none => (l, [Effect.warning])
  | some p => ({ l with rootItem := l.rootItem.removeItemAt p }, [])

/-- Source `Layout::restorePlaceholder(dw, item, tabIndex)`: a placeholder item
is first given a freshly constructed group (`new Core::Group(view())`, modelled
by `freshGroupId` with no tabs yet) via `Item::restore`; then the dock widget
is inserted at `tabIndex` when `tabIndex != -1 && dockWidgetCount() >= tabIndex`
and appended via `addTab` otherwise, and the group is made visible.  The
`Q_ASSERT(group)` failure case (no group controller, e.g. a container) is
modelled as `none`. -/
def Layout.restorePlaceholder (dw : Nat) (item : Item) (tabIndex : Int)
    (freshGroupId : Nat) : Option Item :=
  let item1 :=
    if item.isPlaceholder then
      item.restore
        { id := freshGroupId, dockWidgets := [], currentTabIndex := -1,
          visible := false, vetoesClose := false }
    else item
  match item1.asGroupController with
  | none => none
  | some group =>
      let group1 :=
        if tabIndex ≠ -1 ∧ (group.dockWidgetCount : Int) ≥ tabIndex then
          group.insertWidget dw tabIndex
        else
          group.addTab dw
      some (item1.setGroup (group1.setVisible true))

/-- Modelled from the spec: delivering the cancellable `CloseEvent` to a
group's view through `Platform::instance()->sendEvent` — a vetoing group marks
the event not-accepted, any other group leaves the accepted state alone. -/
def Group.sendCloseEvent (g : Group) (accepted : Bool) : Bool :=
  if g.vetoesClose then false else accepted

/-- The delivery loop of `Layout::onCloseEvent`: sends the event to each group
in order and stops after the first group that leaves the event not-accepted.
Returns the final accepted state together with the ids of the groups that
received the event, in delivery order. -/
def Layout.deliverCloseEvent : List Group → Bool → Bool × List Nat
  | [], accepted => (accepted, [])
  | g :: gs, accepted =>
      let accepted1 := g.sendCloseEvent accepted
      if accepted1 then
        let r := Layout.deliverCloseEvent gs accepted1
        (r.1, g.id :: r.2)
      else
        (accepted1, [g.id])

/-- Source `Layout::onCloseEvent(e)`: accepts the event up front (`e->accept()`,
"will close unless ignored"), then broadcasts it to `groups()` in order,
breaking at the first group that prevents closing. -/
def Layout.onCloseEvent (l : Layout) : Bool × List Nat :=
  Layout.deliverCloseEvent l.groups true

/-- Modelled from the spec: `LayoutSaver::Group` — the persisted content record
of one group: its opaque id, the list of dock widget ids, and the active tab
index. -/
structure LayoutSaverGroup where
  id : Nat
  dockWidgets : List Nat
  currentTabIndex : Int
deriving DecidableEq

/-- Modelled from the spec: `Group::serialize()` — the group's own content as a
persistable record. -/
def Group.serialize (g : Group) : LayoutSaverGroup :=
  ⟨g.id, g.dockWidgets, g.currentTabIndex⟩

/-- Modelled from the spec: `Group::deserialize(record)` — rebuilds a group
from its content record (the group is created hidden; visibility and close
behaviour are runtime state, not persisted). -/
def Group.deserialize (r : LayoutSaverGroup) : Group :=
  ⟨r.id, r.dockWidgets, r.currentTabIndex, false, false⟩

/-- Modelled from the spec: the variant-map tree description produced by
`Item::toVariantMap` — a nested split/leaf structure; a leaf names the id of
the group hosted there (or no id for a placeholder) and carries the item's
geometry and minimum size hints. -/
inductive VariantMap where
  | leaf (groupId : Option Nat) (minSz : QSize) (sz : QSize)
  | container (horizontal : Bool) (sz : QSize) (children : List VariantMap)

/-- Modelled from the spec: `LayoutSaver::MultiSplitter` — a layout record:
the tree description plus the map from group id to group content record. -/
structure MultiSplitterRecord where
  layout : VariantMap
  groups : List LayoutSaverGroup

mutual

/-- Modelled from the spec: `Item::toVariantMap` — tree-to-record conversion;
a leaf stores the id of its group (none for a placeholder). -/
def Item.toVariantMap : Item → VariantMap
  | .leaf g m s => .leaf (g.map Group.id) m s
  | .container h s children => .container h s (Item.toVariantMapList children)

/-- Tree-to-record conversion of a child list. -/
def Item.toVariantMapList : List Item → List VariantMap
  | [] => []
  | c :: cs => c.toVariantMap :: Item.toVariantMapList cs

end

/-- Association-list lookup for the group-id map built during `deserialize`
(the `QHash<QString, View *>` of the source). -/
def lookupGroup : Nat → List (Nat × Group) → Option Group
  | _, [] => none
  | k, (k', v) :: rest => if k = k' then some v else lookupGroup k rest

mutual

/-- Modelled from the spec: `ItemContainer::fillFromVariantMap(record, groups)`
— record-to-tree conversion. The tree is rebuilt following the record's
structure, each leaf resolving its group id in the map of rebuilt groups; an id
missing from the map leaves the leaf without a guest (the shown surface does
not report malformed records). -/
def Item.fillFromVariantMap : VariantMap → List (Nat × Group) → Item
  | .leaf none m s, _ => .leaf none m s
  | .leaf (some gid) m s, groups => .leaf (lookupGroup gid groups) m s
  | .container h s children, groups =>
      .container h s (Item.fillListFromVariantMap children groups)

/-- Record-to-tree conversion of a child list. -/
def Item.fillListFromVariantMap : List VariantMap → List (Nat × Group) → List Item
  | [], _ => []
  | v :: vs, groups =>
      Item.fillFromVariantMap v groups :: Item.fillListFromVariantMap vs groups

end

/-- Source `Layout::serialize()`: the record holds `m_rootItem->toVariantMap()`
and, for every non-container item of `items_recursive()` that has a group
controller, an entry keyed by the group view's id holding `group->serialize()`. -/
def Layout.serialize (l : Layout) : MultiSplitterRecord :=
  { layout := l.rootItem.toVariantMap
    groups := l.rootItem.items_recursive.filterMap fun it =>
      if it.isContainer then none else it.asGroupController.map Group.serialize }

/-- Source `Layout::deserialize(l)`: rebuilds each group from its record into
an id-keyed map (`Q_ASSERT(!group.id.isEmpty())` is vacuous for `Nat` ids),
refills the tree from the record resolving group ids in that map, re-applies
size constraints, then resizes the tree to the host view's size expanded to the
tree's minimum size, and returns `true`. -/
def Layout.deserialize (restoring : Bool) (l : Layout) (r : MultiSplitterRecord) :
    Layout × Bool :=
  let groups : List (Nat × Group) :=
    r.groups.map fun g => (g.id, Group.deserialize g)
  let l1 : Layout := { l with rootItem := Item.fillFromVariantMap r.layout groups }
  let l2 := (Layout.updateSizeConstraints restoring l1).1
  let newLayoutSize := l2.viewSize.expandedTo l2.rootItem.minSize
  ({ l2 with rootItem := l2.rootItem.setSize_recursive newLayoutSize }, true)

/-- The observable content of an item tree for the round-trip contract: the
parent/child structure together with, per leaf, the hosted group's id, its
dock-widget membership in tab order, and its active tab index (geometry and
runtime visibility are not part of the persisted contract). -/
inductive ContentTree where
  | leaf (content : Option (Nat × List Nat × Int))
  | node (horizontal : Bool) (children : List ContentTree)

mutual

/-- Content projection of an item tree (see `ContentTree`). -/
def Item.contentView : Item → ContentTree
  | .leaf g _ _ => .leaf (g.map fun gr => (gr.id, gr.dockWidgets, gr.currentTabIndex))
  | .container h _ children => .node h (Item.contentViewList children)

/-- Content projection of a child list. -/
def Item.contentViewList : List Item → List ContentTree
  | [] => []
  | c :: cs => c.contentView :: Item.contentViewList cs

end

/-! Concrete inputs used by the witnesses and counterexamples below. -/

/-- A group with two tabs, used as a concrete input. -/
def demoGroup1 : Group :=
  ⟨1, [10, 11], 0, true, false⟩

/-- A second group with one tab, used as a concrete input. -/
def demoGroup2 : Group :=
  ⟨2, [12], 0, true, false⟩

/-- A layout whose tree is a horizontal split of a live group leaf, a
placeholder leaf and another live group leaf. -/
def demoLayout : Layout :=
  ⟨Item.container true ⟨8, 8⟩
      [Item.leaf (some demoGroup1) ⟨2, 2⟩ ⟨3, 3⟩,
       Item.leaf none ⟨1, 1⟩ ⟨2, 2⟩,
       Item.leaf (some demoGroup2) ⟨2, 2⟩ ⟨3, 3⟩],
    ⟨5, 5⟩, false⟩

/-- A layout holding a single placeholder leaf, so it contains no groups. -/
def demoEmptyLayout : Layout :=
  ⟨Item.leaf none ⟨0, 0⟩ ⟨0, 0⟩, ⟨0, 0⟩, false⟩

/-- A layout observed in the middle of an `onResize` call: the
`m_inResizeEvent` guard is set. -/
def demoReentrant : Layout :=
  ⟨Item.leaf none ⟨1, 1⟩ ⟨100, 100⟩, ⟨100, 100⟩, true⟩

/-- A layout whose tree minimum size (60 by 60) exceeds its current layout size
(50 by 50). -/
def demoUndersized : Layout :=
  ⟨Item.leaf none ⟨60, 60⟩ ⟨50, 50⟩, ⟨50, 50⟩, false⟩

/-- A malformed layout record: its tree references group id 42, but its group
map is empty. -/
def demoBadRecord : MultiSplitterRecord :=
  ⟨VariantMap.leaf (some 42) ⟨1, 1⟩ ⟨1, 1⟩, []⟩

/-! Helper lemmas. -/

/-- Structural induction principle for `Item` giving the hypothesis for every
member of a container's child list. -/
theorem Item.inductionOn (P : Item → Prop)
    (hleaf : ∀ g m s, P (Item.leaf g m s))
    (hcont : ∀ h s children, (∀ c ∈ children, P c) → P (Item.container h s children))
    (it : Item) : P it := by
  induction it using Item.rec (motive_2 := fun l => ∀ c ∈ l, P c) with
  | leaf g m s => exact hleaf g m s
  | container h s children ih => exact hcont h s children ih
  | nil c hc => exact absurd hc (List.not_mem_nil c)
  | cons hd tl hhd htl c hc =>
      rcases List.mem_cons.mp hc with h | h
      · exact h ▸ hhd
      · exact htl c h

/-- `updateSizeConstraints` hands `m_rootItem->minSize()` to
`setLayoutMinimumSize`, whose guard compares that same value against
`m_rootItem->minSize()` again, so the guarded branch can never run: the call
leaves the layout unchanged and performs no effect. -/
theorem Layout.updateSizeConstraints_eq (restoring : Bool) (l : Layout) :
    Layout.updateSizeConstraints restoring l = (l, []) := by
  simp [Layout.updateSizeConstraints, Layout.setLayoutMinimumSize]

/-- `setSize_recursive` assigns exactly the requested size to the root. -/
theorem Item.size_setSize_recursive (it : Item) (s : QSize) :
    (it.setSize_recursive s).size = s := by
  cases it <;> rfl

/-- List form of `Item.minSize_setSize_recursive`. -/
theorem Item.minSizeList_setSizeList (h : Bool) (cs : List Item) (s : QSize)
    (ih : ∀ c ∈ cs, ∀ s', (c.setSize_recursive s').minSize = c.minSize) :
    Item.minSizeList h (Item.setSizeList cs s) = Item.minSizeList h cs := by
  induction cs with
  | nil => rfl
  | cons hd tl htl =>
      simp only [Item.setSizeList, Item.minSizeList]
      rw [ih hd (List.mem_cons_self hd tl) s,
        htl (fun c hc s' => ih c (List.mem_cons_of_mem hd hc) s')]

/-- Resizing the tree does not change its aggregated minimum size. -/
theorem Item.minSize_setSize_recursive (it : Item) :
    ∀ s, (it.setSize_recursive s).minSize = it.minSize := by
  induction it using Item.inductionOn with
  | hleaf g m s => intro s'; rfl
  | hcont h s children ih =>
      intro s'
      simp only [Item.setSize_recursive, Item.minSize]
      exact Item.minSizeList_setSizeList h children _ fun c hc s'' => ih c hc s''

/-- List form of `Item.contentView_setSize_recursive`. -/
theorem Item.contentViewList_setSizeList (cs : List Item) (s : QSize)
    (ih : ∀ c ∈ cs, ∀ s', (c.setSize_recursive s').contentView = c.contentView) :
    Item.contentViewList (Item.setSizeList cs s) = Item.contentViewList cs := by
  induction cs with
  | nil => rfl
  | cons hd tl htl =>
      simp only [Item.setSizeList, Item.contentViewList]
      rw [ih hd (List.mem_cons_self hd tl) s,
        htl (fun c hc s' => ih c (List.mem_cons_of_mem hd hc) s')]

/-- Resizing the tree changes no structure, group membership or tab index. -/
theorem Item.contentView_setSize_recursive (it : Item) :
    ∀ s, (it.setSize_recursive s).contentView = it.contentView := by
  induction it using Item.inductionOn with
  | hleaf g m s => intro s'; rfl
  | hcont h s children ih =>
      intro s'
      simp only [Item.setSize_recursive, Item.contentView]
      rw [Item.contentViewList_setSizeList children _ fun c hc s'' => ih c hc s'']

/-- List form of `Item.minSize_fill_toVariantMap`. -/
theorem Item.minSizeList_fillList (h : Bool) (cs : List Item)
    (ih : ∀ c ∈ cs, ∀ M, (Item.fillFromVariantMap c.toVariantMap M).minSize = c.minSize) :
    ∀ M, Item.minSizeList h
        (Item.fillListFromVariantMap (Item.toVariantMapList cs) M)
      = Item.minSizeList h cs := by
  induction cs with
  | nil => intro M; rfl
  | cons hd tl htl =>
      intro M
      simp only [Item.toVariantMapList, Item.fillListFromVariantMap, Item.minSizeList]
      rw [ih hd (List.mem_cons_self hd tl) M,
        htl (fun c hc M' => ih c (List.mem_cons_of_mem hd hc) M') M]

/-- Serializing and refilling the tree preserves the aggregated minimum size,
whatever group map the refill resolves ids in (a leaf's minimum size is stored
in its own record). -/
theorem Item.minSize_fill_toVariantMap (it : Item) :
    ∀ M, (Item.fillFromVariantMap it.toVariantMap M).minSize = it.minSize := by
  induction it using Item.inductionOn with
  | hleaf g m s =>
      intro M
      cases g <;> rfl
  | hcont h s children ih =>
      intro M
      simp only [Item.toVariantMap, Item.fillFromVariantMap, Item.minSize]
      rw [Item.minSizeList_fillList h children (fun c hc M' => ih c hc M') M]

/-- A leaf enumerated from a child of a container is enumerated from the
container's child list as a whole. -/
theorem Item.mem_itemsList_of_mem {c : Item} {children : List Item}
    (hc : c ∈ children) {x : Item} (hx : x ∈ c.items_recursive) :
    x ∈ Item.itemsList children := by
  induction children with
  | nil => exact absurd hc (List.not_mem_nil c)
  | cons hd tl htl =>
      rcases List.mem_cons.mp hc with h | h
      · subst h
        exact List.mem_append_left _ hx
      · exact List.mem_append_right _ (htl h)

/-- A group referenced inside a child of a container is referenced inside the
container. -/
theorem Item.mem_groups_of_child {c : Item} {children : List Item}
    (hc : c ∈ children) {g : Group} (hg : g ∈ c.groups_recursive)
    (h : Bool) (s : QSize) :
    g ∈ (Item.container h s children).groups_recursive := by
  rcases List.mem_filterMap.mp hg with ⟨x, hx, hxg⟩
  exact List.mem_filterMap.mpr
    ⟨x, Item.mem_itemsList_of_mem hc hx, hxg⟩

/-- Looking a group id up in the association list built over a duplicate-free
group list yields that group's own entry. -/
theorem lookupGroup_map_of_nodup (f : Group → Group) :
    ∀ (gs : List Group) (g : Group), g ∈ gs → (gs.map Group.id).Nodup →
      lookupGroup g.id (gs.map fun g' => (g'.id, f g')) = some (f g) := by
  intro gs
  induction gs with
  | nil => intro g hg _; exact absurd hg (List.not_mem_nil g)
  | cons hd tl htl =>
      intro g hg hnd
      rcases List.mem_cons.mp hg with h | h
      · subst h
        simp [lookupGroup]
      · have hne : g.id ≠ hd.id := by
          intro he
          have : hd.id ∈ tl.map Group.id := he ▸ List.mem_map_of_mem Group.id h
          exact (List.nodup_cons.mp hnd).1 this
        simp only [List.map_cons, lookupGroup, if_neg hne]
        exact htl g h (List.nodup_cons.mp hnd).2

/-- List form of `Item.contentView_fill_roundtrip`. -/
theorem Item.contentViewList_fillList (children : List Item)
    (ih : ∀ c ∈ children, ∀ M,
      (∀ g ∈ c.groups_recursive,
        lookupGroup g.id M = some (Group.deserialize (Group.serialize g))) →
      (Item.fillFromVariantMap c.toVariantMap M).contentView = c.contentView)
    (M : List (Nat × Group))
    (hM : ∀ c ∈ children, ∀ g ∈ c.groups_recursive,
      lookupGroup g.id M = some (Group.deserialize (Group.serialize g))) :
    Item.contentViewList
        (Item.fillListFromVariantMap (Item.toVariantMapList children) M)
      = Item.contentViewList children := by
  induction children with
  | nil => rfl
  | cons hd tl htl =>
      simp only [Item.toVariantMapList, Item.fillListFromVariantMap,
        Item.contentViewList]
      rw [ih hd (List.mem_cons_self hd tl) M (hM hd (List.mem_cons_self hd tl)),
        htl (fun c hc M' h' => ih c (List.mem_cons_of_mem hd hc) M' h')
          (fun c hc => hM c (List.mem_cons_of_mem hd hc))]

/-- Refilling the serialized tree in a map that resolves every referenced group
id to the deserialization of that group's own record reproduces the original
structure, group ids, memberships and tab indices. -/
theorem Item.contentView_fill_roundtrip (it : Item) :
    ∀ M, (∀ g ∈ it.groups_recursive,
        lookupGroup g.id M = some (Group.deserialize (Group.serialize g))) →
      (Item.fillFromVariantMap it.toVariantMap M).contentView = it.contentView := by
  induction it using Item.inductionOn with
  | hleaf g m s =>
      intro M hM
      cases g with
      | none => rfl
      | some gr =>
          have hmem : gr ∈ (Item.leaf (some gr) m s).groups_recursive := by
            simp [Item.groups_recursive, Item.items_recursive, Item.asGroupController]
          have := hM gr hmem
          simp only [Item.toVariantMap, Option.map_some', Item.fillFromVariantMap,
            this, Item.contentView]
          rfl
  | hcont h s children ih =>
      intro M hM
      simp only [Item.toVariantMap, Item.fillFromVariantMap, Item.contentView]
      rw [Item.contentViewList_fillList children ih M
        (fun c hc g hg => hM g (Item.mem_groups_of_child hc hg h s))]

/-- List form of `Item.items_recursive_not_container`. -/
theorem Item.itemsList_not_container (children : List Item)
    (ih : ∀ c ∈ children, ∀ x ∈ c.items_recursive, x.isContainer = false) :
    ∀ x ∈ Item.itemsList children, x.isContainer = false := by
  induction children with
  | nil => intro x hx; exact absurd hx (List.not_mem_nil x)
  | cons hd tl htl =>
      intro x hx
      rcases List.mem_append.mp hx with h | h
      · exact ih hd (List.mem_cons_self hd tl) x h
      · exact htl (fun c hc => ih c (List.mem_cons_of_mem hd hc)) x h

/-- `items_recursive` enumerates leaves only. -/
theorem Item.items_recursive_not_container (it : Item) :
    ∀ x ∈ it.items_recursive, x.isContainer = false := by
  induction it using Item.inductionOn with
  | hleaf g m s =>
      intro x hx
      rcases List.mem_singleton.mp hx with h
      subst h; rfl
  | hcont h s children ih =>
      intro x hx
      exact Item.itemsList_not_container children ih x hx

/-- The group records collected by `Layout::serialize` are exactly the
serializations of the tree's groups in enumeration order. -/
theorem Layout.serialize_groups_eq (l : Layout) :
    (l.serialize).groups = (l.rootItem.groups_recursive).map Group.serialize := by
  have hcongr : l.rootItem.items_recursive.filterMap
      (fun it => if it.isContainer then none else it.asGroupController.map Group.serialize)
      = l.rootItem.items_recursive.filterMap
        (fun it => it.asGroupController.map Group.serialize) := by
    apply List.filterMap_congr
    intro x hx
    rw [Item.items_recursive_not_container l.rootItem x hx]
    simp
  calc (l.serialize).groups
      = l.rootItem.items_recursive.filterMap
          (fun it => it.asGroupController.map Group.serialize) := hcongr
    _ = (l.rootItem.items_recursive.filterMap Item.asGroupController).map
          Group.serialize := (List.map_filterMap _ _ _).symm
    _ = (l.rootItem.groups_recursive).map Group.serialize := rfl

/-- Characterization of the close-event delivery loop started with an accepted
event: the event reaches exactly the groups up to and including the first
vetoing one, and the final accepted state is `true` exactly when no group
vetoes. -/
theorem Layout.deliverCloseEvent_spec (gs : List Group) :
    Layout.deliverCloseEvent gs true
      = (!gs.any Group.vetoesClose,
         ((gs.takeWhile fun g => !g.vetoesClose)
           ++ (gs.dropWhile fun g => !g.vetoesClose).take 1).map Group.id) := by
  induction gs with
  | nil => rfl
  | cons hd tl htl =>
      by_cases hv : hd.vetoesClose = true
      · simp [Layout.deliverCloseEvent, Group.sendCloseEvent, hv,
          List.takeWhile_cons, List.dropWhile_cons]
      · simp only [Bool.not_eq_true] at hv
        simp [Layout.deliverCloseEvent, Group.sendCloseEvent, hv, htl,
          List.takeWhile_cons, List.dropWhile_cons]

/-! Claim theorems. -/

/-- C2: `onCloseEvent` delivers the close event to the layout's groups in
enumeration order and stops at the first group that marks the event
not-accepted — the delivered groups are exactly the non-vetoing front of the
list followed by the first vetoer, so a later group never receives the event —
and the final accepted state is false exactly when some group vetoed. -/
theorem c2_onCloseEvent_order_and_veto (l : Layout) :
    (l.onCloseEvent).2
      = (((l.groups).takeWhile fun g => !g.vetoesClose)
          ++ ((l.groups).dropWhile fun g => !g.vetoesClose).take 1).map Group.id ∧
    ((l.onCloseEvent).1 = false ↔ ∃ g ∈ l.groups, g.vetoesClose = true) := by
  constructor
  · rw [Layout.onCloseEvent, Layout.deliverCloseEvent_spec]
  · rw [Layout.onCloseEvent, Layout.deliverCloseEvent_spec]
    simp [List.any_eq_true]

/-- C4 (evaluation at the failing input): on a layout whose tree minimum size
(60 by 60) exceeds the current layout size (50 by 50), `updateSizeConstraints`
leaves the layout completely unchanged — it does not grow the layout size to
the aggregate minimum as the spec requires, because `setLayoutMinimumSize`'s
guard compares `m_rootItem->minSize()` against itself. -/
theorem c4_updateSizeConstraints_fails_to_grow :
    Layout.updateSizeConstraints false demoUndersized = (demoUndersized, []) ∧
    demoUndersized.layoutSize.width < demoUndersized.rootItem.minSize.width ∧
    demoUndersized.layoutSize.height < demoUndersized.rootItem.minSize.height := by
  decide

/-- C6: `removeItem` with a null item only emits the `qWarning` diagnostic and
leaves the layout unchanged; with a non-null item it delegates removal to the
item's parent container, which erases the item from its ordered child list. -/
theorem c6_removeItem_null_noop (l : Layout) :
    Layout.removeItem l none = (l, [Effect.warning]) ∧
    (∀ p, Layout.removeItem l (some p)
        = ({ l with rootItem := l.rootItem.removeItemAt p }, [])) ∧
    (∀ h s children i, Item.removeItemAt (Item.container h s children) [i]
        = Item.container h s (children.eraseIdx i)) :=
  ⟨rfl, fun _ => rfl, fun _ _ _ _ => rfl⟩

/-- C7 (counterexample): on the record whose tree references group id 42 while
its group map is empty, `deserialize` still returns success (`true`) — there is
no `RestoreError` — and the rebuilt root is a leaf with no group controller, a
silently corrupt tree. -/
theorem c7_counterexample_unknown_id_succeeds :
    (Layout.deserialize false demoEmptyLayout demoBadRecord).2 = true ∧
    lookupGroup 42 ((demoBadRecord.groups).map fun g => (g.id, Group.deserialize g))
      = none ∧
    (Layout.deserialize false demoEmptyLayout demoBadRecord).1.rootItem.asGroupController
      = none := by
  decide

/-- C7 (amended): `deserialize` reports success on every layout record — also
on records referencing unknown group ids or describing degenerate containers —
instead of failing with a `RestoreError`. -/
theorem c7_deserialize_always_returns_success (restoring : Bool) (l : Layout)
    (r : MultiSplitterRecord) :
    (Layout.deserialize restoring l r).2 = true :=
  rfl

/-- C8: while a restore is in progress, `onResize` skips `setLayoutSize`
entirely (the call is a complete no-op returning `false`), and `setLayoutSize`
never resizes the host view, so applying a persisted layout produces no live
resize side effects on the host view. -/
theorem c8_restore_suppresses_view_resize (l : Layout) (newSize sz : QSize) :
    Layout.onResize true l newSize = (l, ([], false)) ∧
    (Layout.setLayoutSize true l sz).1.viewSize = l.viewSize ∧
    (Layout.setLayoutSize true l sz).2 = [] := by
  refine ⟨?_, ?_, ?_⟩
  · simp [Layout.onResize]
  · by_cases hsz : sz = l.layoutSize <;> simp [Layout.setLayoutSize, hsz]
  · by_cases hsz : sz = l.layoutSize <;> simp [Layout.setLayoutSize, hsz]

/-- C9: a layout containing no groups leaves the close event accepted — the
event is accepted before the groups are consulted, so an empty layout always
permits closing. -/
theorem c9_empty_layout_close_accepted (l : Layout) (h : l.groups = []) :
    l.onCloseEvent = (true, []) := by
  rw [Layout.onCloseEvent, h]
  rfl

/-- C9 witness: the layout holding a single placeholder leaf has no groups and
its close event stays accepted. -/
theorem c9_witness :
    demoEmptyLayout.groups = [] ∧ demoEmptyLayout.onCloseEvent = (true, []) :=
  ⟨rfl, c9_empty_layout_close_accepted demoEmptyLayout rfl⟩

/-- C1: `deserialize(serialize(x))` succeeds and reconstructs a tree with the
same parent/child structure, the same group ids, and per-group dock-widget
membership and tab index preserved (the `Item.contentView` projection), and
the resulting layout size is at least the tree's minimum size in both
dimensions.  The hypothesis is the sanity invariant that the group (view) ids
occurring in the tree are pairwise distinct. -/
theorem c1_serialize_deserialize_roundtrip (restoring : Bool) (l : Layout)
    (hids : ((l.rootItem.groups_recursive).map Group.id).Nodup) :
    (Layout.deserialize restoring l l.serialize).2 = true ∧
    (Layout.deserialize restoring l l.serialize).1.rootItem.contentView
      = l.rootItem.contentView ∧
    l.rootItem.minSize.width
      ≤ (Layout.deserialize restoring l l.serialize).1.layoutSize.width ∧
    l.rootItem.minSize.height
      ≤ (Layout.deserialize restoring l l.serialize).1.layoutSize.height := by
  have hM : (((l.serialize).groups).map fun g => (g.id, Group.deserialize g))
      = (l.rootItem.groups_recursive).map
          fun g => (g.id, Group.deserialize (Group.serialize g)) := by
    rw [Layout.serialize_groups_eq, List.map_map]
    rfl
  have hlookup : ∀ g ∈ l.rootItem.groups_recursive,
      lookupGroup g.id (((l.serialize).groups).map fun g => (g.id, Group.deserialize g))
        = some (Group.deserialize (Group.serialize g)) := by
    intro g hg
    rw [hM]
    exact lookupGroup_map_of_nodup _ _ g hg hids
  refine ⟨rfl, ?_, ?_, ?_⟩
  · simp only [Layout.deserialize, Layout.updateSizeConstraints_eq]
    rw [Item.contentView_setSize_recursive]
    exact Item.contentView_fill_roundtrip l.rootItem _ hlookup
  · simp only [Layout.deserialize, Layout.updateSizeConstraints_eq,
      Layout.layoutSize, Layout.serialize]
    rw [Item.size_setSize_recursive, Item.minSize_fill_toVariantMap,
      QSize.expandedTo]
    exact le_max_right _ _
  · simp only [Layout.deserialize, Layout.updateSizeConstraints_eq,
      Layout.layoutSize, Layout.serialize]
    rw [Item.size_setSize_recursive, Item.minSize_fill_toVariantMap,
      QSize.expandedTo]
    exact le_max_right _ _

/-- C1 witness: the round trip at the three-leaf demo layout, whose group ids 1
and 2 are distinct. -/
theorem c1_witness :
    ((demoLayout.rootItem.groups_recursive).map Group.id).Nodup ∧
    ((Layout.deserialize false demoLayout demoLayout.serialize).2 = true ∧
      (Layout.deserialize false demoLayout demoLayout.serialize).1.rootItem.contentView
        = demoLayout.rootItem.contentView ∧
      demoLayout.rootItem.minSize.width
        ≤ (Layout.deserialize false demoLayout demoLayout.serialize).1.layoutSize.width ∧
      demoLayout.rootItem.minSize.height
        ≤ (Layout.deserialize false demoLayout demoLayout.serialize).1.layoutSize.height) :=
  ⟨by decide, c1_serialize_deserialize_roundtrip false demoLayout (by decide)⟩

/-- C3 (counterexample): a re-entrant `onResize` call (guard set) with a size
different from the current layout size is not a no-op — the item tree is still
resized by `setLayoutSize` (only the host-view resize is guarded). -/
theorem c3_counterexample_reentrant_resizes_tree :
    demoReentrant.inResizeEvent = true ∧
    (Layout.onResize false demoReentrant ⟨200, 200⟩).1.rootItem
      ≠ demoReentrant.rootItem := by
  decide

/-- C3 (amended): a re-entrant `onResize` call (the `m_inResizeEvent` guard is
set) never resizes the host view and emits no effect, leaves the guard as it
found it, and is a complete no-op when the requested size equals the current
layout size — the feedback-loop case — so `onResize` never recurses into a
resize feedback loop; with a different requested size the item tree is still
resized. -/
theorem c3_onResize_reentrant_guard (restoring : Bool) (l : Layout)
    (newSize : QSize) (h : l.inResizeEvent = true) :
    (Layout.onResize restoring l newSize).1.viewSize = l.viewSize ∧
    (Layout.onResize restoring l newSize).2.1 = [] ∧
    (Layout.onResize restoring l newSize).1.inResizeEvent = true ∧
    (newSize = l.layoutSize → (Layout.onResize restoring l newSize).1 = l) := by
  rcases l with ⟨root, vs, ire⟩
  cases h
  cases restoring <;>
    by_cases hsz : newSize = Layout.layoutSize ⟨root, vs, true⟩ <;>
    simp [Layout.onResize, Layout.setLayoutSize, hsz]

/-- C3 witness for the amended theorem: the guard behaviour at the concrete
re-entrant layout, requested size 200 by 200. -/
theorem c3_witness :
    (Layout.onResize false demoReentrant ⟨200, 200⟩).1.viewSize
      = demoReentrant.viewSize ∧
    (Layout.onResize false demoReentrant ⟨200, 200⟩).2.1 = [] ∧
    (Layout.onResize false demoReentrant ⟨200, 200⟩).1.inResizeEvent = true ∧
    ((⟨200, 200⟩ : QSize) = demoReentrant.layoutSize →
      (Layout.onResize false demoReentrant ⟨200, 200⟩).1 = demoReentrant) :=
  c3_onResize_reentrant_guard false demoReentrant ⟨200, 200⟩ rfl

/-- C5 (counterexample): `restorePlaceholder` with `tabIndex = 2` on a live
group with no dock widgets appends the widget at position 0 via `addTab` — the
result has a single tab and nothing at position 2, so the widget is not
inserted at position `tabIndex` although `tabIndex` is not `-1`. -/
theorem c5_counterexample_big_tabIndex_appends :
    Layout.restorePlaceholder 99 (Item.leaf (some ⟨7, [], -1, true, false⟩) ⟨1, 1⟩ ⟨2, 2⟩) 2 5
      = some (Item.leaf (some ⟨7, [99], 0, true, false⟩) ⟨1, 1⟩ ⟨2, 2⟩) ∧
    ([99] : List Nat).get? 2 = none := by
  decide

/-- C5 (amended): `restorePlaceholder` converts a placeholder item into a live
group (creating a fresh one holding exactly the dock widget, made visible);
on a leaf with a live group it makes the group visible and inserts the dock
widget at position `tabIndex` when `0 ≤ tabIndex ≤ dockWidgetCount`, while it
appends the widget when `tabIndex` is `-1` or exceeds the count. -/
theorem c5_restorePlaceholder_spec (dw freshId : Nat) (tabIndex : Int)
    (g : Group) (m s : QSize) :
    (((Layout.restorePlaceholder dw (Item.leaf none m s) tabIndex freshId).bind
        Item.asGroupController).map fun g' => (g'.id, g'.dockWidgets, g'.visible))
      = some (freshId, [dw], true) ∧
    (tabIndex = -1 →
      Layout.restorePlaceholder dw (Item.leaf (some g) m s) tabIndex freshId
        = some (Item.leaf (some ((g.addTab dw).setVisible true)) m s)) ∧
    (0 ≤ tabIndex → tabIndex ≤ (g.dockWidgetCount : Int) →
      Layout.restorePlaceholder dw (Item.leaf (some g) m s) tabIndex freshId
        = some (Item.leaf (some ((g.insertWidget dw tabIndex).setVisible true)) m s)) ∧
    ((g.dockWidgetCount : Int) < tabIndex →
      Layout.restorePlaceholder dw (Item.leaf (some g) m s) tabIndex freshId
        = some (Item.leaf (some ((g.addTab dw).setVisible true)) m s)) := by
  refine ⟨?_, ?_, ?_, ?_⟩
  · simp only [Layout.restorePlaceholder, Item.isPlaceholder, Item.restore,
      Item.asGroupController, Item.setGroup, if_true]
    by_cases hc : tabIndex ≠ -1 ∧ ((Group.dockWidgetCount
        ⟨freshId, [], -1, false, false⟩ : Nat) : Int) ≥ tabIndex
    · rw [if_pos hc]
      have h0 : tabIndex.toNat = 0 := Int.toNat_of_nonpos (by
        have := hc.2
        simpa [Group.dockWidgetCount] using this)
      simp [Group.insertWidget, Group.setVisible, h0]
    · rw [if_neg hc]
      simp [Group.addTab, Group.setVisible]
  · intro h
    subst h
    simp [Layout.restorePlaceholder, Item.isPlaceholder, Item.asGroupController,
      Item.setGroup]
  · intro h0 hle
    have hc : tabIndex ≠ -1 ∧ (g.dockWidgetCount : Int) ≥ tabIndex :=
      ⟨by omega, hle⟩
    simp [Layout.restorePlaceholder, Item.isPlaceholder, Item.asGroupController,
      Item.setGroup, hc]
  · intro hlt
    have hc : ¬(tabIndex ≠ -1 ∧ (g.dockWidgetCount : Int) ≥ tabIndex) := by
      intro hc
      omega
    simp [Layout.restorePlaceholder, Item.isPlaceholder, Item.asGroupController,
      Item.setGroup, hc]

/-- C5 witness for the amended theorem: inserting dock widget 4 at tab position
1 of a live two-tab group. -/
theorem c5_witness :
    (0 : Int) ≤ 1 ∧
    (1 : Int) ≤ ((Group.dockWidgetCount ⟨7, [20, 21], 0, true, false⟩ : Nat) : Int) ∧
    Layout.restorePlaceholder 4 (Item.leaf (some ⟨7, [20, 21], 0, true, false⟩) ⟨1, 1⟩ ⟨2, 2⟩) 1 9
      = some (Item.leaf (some ((Group.insertWidget ⟨7, [20, 21], 0, true, false⟩ 4 1).setVisible true)) ⟨1, 1⟩ ⟨2, 2⟩) :=
  ⟨by decide, by decide,
    (c5_restorePlaceholder_spec 4 9 1 ⟨7, [20, 21], 0, true, false⟩ ⟨1, 1⟩ ⟨2, 2⟩).2.2.1
      (by decide) (by decide)⟩

/-- C10: when `tabIndex` exceeds the target group's dock-widget count the
widget is appended as the last tab via `addTab`, and in general the insertion
path runs exactly when `tabIndex` is not `-1` and at most the count. -/
theorem c10_restorePlaceholder_overflow_appends (dw freshId : Nat)
    (tabIndex : Int) (g : Group) (m s : QSize) :
    ((g.dockWidgetCount : Int) < tabIndex →
      Layout.restorePlaceholder dw (Item.leaf (some g) m s) tabIndex freshId
        = some (Item.leaf (some ((g.addTab dw).setVisible true)) m s)) ∧
    Layout.restorePlaceholder dw (Item.leaf (some g) m s) tabIndex freshId
      = some (Item.leaf (some
          ((if tabIndex ≠ -1 ∧ tabIndex ≤ (g.dockWidgetCount : Int)
            then g.insertWidget dw tabIndex
            else g.addTab dw).setVisible true)) m s) := by
  constructor
  · intro hlt
    have hc : ¬(tabIndex ≠ -1 ∧ (g.dockWidgetCount : Int) ≥ tabIndex) := by
      intro hc
      omega
    simp [Layout.restorePlaceholder, Item.isPlaceholder, Item.asGroupController,
      Item.setGroup, hc]
  · by_cases hc : tabIndex ≠ -1 ∧ (g.dockWidgetCount : Int) ≥ tabIndex
    · have hc' : tabIndex ≠ -1 ∧ tabIndex ≤ (g.dockWidgetCount : Int) := hc
      simp [Layout.restorePlaceholder, Item.isPlaceholder, Item.asGroupController,
        Item.setGroup, hc, hc']
    · have hc' : ¬(tabIndex ≠ -1 ∧ tabIndex ≤ (g.dockWidgetCount : Int)) := hc
      simp [Layout.restorePlaceholder, Item.isPlaceholder, Item.asGroupController,
        Item.setGroup, hc, hc']

/-- C10 witness: appending dock widget 4 with `tabIndex = 5` to a two-tab
group. -/
theorem c10_witness :
    ((Group.dockWidgetCount ⟨7, [20, 21], 0, true, false⟩ : Nat) : Int) < 5 ∧
    Layout.restorePlaceholder 4 (Item.leaf (some ⟨7, [20, 21], 0, true, false⟩) ⟨1, 1⟩ ⟨2, 2⟩) 5 9
      = some (Item.leaf (some ((Group.addTab ⟨7, [20, 21], 0, true, false⟩ 4).setVisible true)) ⟨1, 1⟩ ⟨2, 2⟩) :=
  ⟨by decide,
    (c10_restorePlaceholder_overflow_appends 4 9 5 ⟨7, [20, 21], 0, true, false⟩ ⟨1, 1⟩ ⟨2, 2⟩).1
      (by decide)⟩

end KDDW
